import Mathlib

/-!
Shallow embedding of the parking occupancy and billing core of
`parking/parking_management.py`, together with the annotation-sorting step of
`parking/views.py` (`CreateAnnotationView.post`).

Money amounts (Python floats) are modelled as rationals; the per-spot minute
counter and the aggregate counters (Python ints) as naturals; pixel
coordinates as integers.
-/

/-- `round_invoice` from `parking_management.py`: `(amount // 100) * 100`.
Python `//` is floor division, embedded with `Int.floor`. -/
def round_invoice (amount : ℚ) : ℚ :=
  (⌊amount / 100⌋ : ℚ) * 100

/-- `calc_invoice` from `parking_management.py`:
`(price_per_hour / 60) * time`. -/
def calc_invoice (time price_per_hour : ℚ) : ℚ :=
  (price_per_hour / 60) * time

/-- One entry of `self.spots`: `{'Time': 0, 'Invoice': 0, 'IsAvailable': True}`. -/
structure Spot where
  time : ℕ
  invoice : ℚ
  isAvailable : Bool
deriving DecidableEq

/-- The `self.pr_info` dictionary:
`{"Occupancy": 0, "Available": 0, 'total_cars': 0, 'total_time': 0, 'total_revenue': 0}`. -/
structure PrInfo where
  occupancy : ℕ
  available : ℕ
  total_cars : ℕ
  total_time : ℕ
  total_revenue : ℚ
deriving DecidableEq

/-- The transition block of `ParkingManagement.process_data` for one spot:
four sequential `if` statements (they are plain `if`s, not `elif`s, so each
condition re-reads `IsAvailable`, which earlier branches may just have
mutated).  The first branch (`IsAvailable and not rg_occupied`) is `pass` and
is therefore omitted. -/
def step_spot (price_per_hour : ℚ) (rg_occ : Bool) (s : Spot) (info : PrInfo) :
    Spot × PrInfo :=
  -- if self.spots[idx+1]['IsAvailable'] and rg_occupied:
  let (s, info) :=
    if s.isAvailable && rg_occ then
      ({ s with isAvailable := false },
       { info with total_cars := info.total_cars + 1 })
    else (s, info)
  -- if not self.spots[idx+1]['IsAvailable'] and not rg_occupied:
  let (s, info) :=
    if !s.isAvailable && !rg_occ then
      ({ s with time := 0, invoice := 0, isAvailable := true },
       { info with total_time := info.total_time + s.time,
                   total_revenue := info.total_revenue + round_invoice s.invoice })
    else (s, info)
  -- if not self.spots[idx+1]['IsAvailable'] and rg_occupied:
  if !s.isAvailable && rg_occ then
    ({ s with time := s.time + 1,
              invoice := calc_invoice (↑(s.time + 1)) price_per_hour },
     info)
  else (s, info)

/-- The region loop of `process_data`, restricted to the state updates: each
spot is paired with its occupancy verdict for this frame, and `pr_info` is
threaded through the loop. -/
def process_spots (price_per_hour : ℚ) :
    List (Spot × Bool) → PrInfo → List Spot × PrInfo
  | [], info => ([], info)
  | (s, occ) :: rest, info =>
    let r := step_spot price_per_hour occ s info
    let t := process_spots price_per_hour rest r.2
    (r.1 :: t.1, t.2)

/-- One frame cycle of `process_data`, taking the per-region occupancy
verdicts as input: apply the transition block to every spot, then overwrite
the snapshot counters with `fs` (filled slots) and `es = len(json) - fs`
(empty slots). -/
def process_frame (price_per_hour : ℚ) (occs : List Bool)
    (st : List Spot × PrInfo) : List Spot × PrInfo :=
  let pairs := st.1.zip occs
  let r := process_spots price_per_hour pairs st.2
  let fs := pairs.countP (fun p => p.2)
  (r.1, { r.2 with occupancy := fs, available := st.1.length - fs })

/-- Repeated frame cycles. -/
def run_frames (price_per_hour : ℚ) (frames : List (List Bool))
    (st : List Spot × PrInfo) : List Spot × PrInfo :=
  frames.foldl (fun acc occs => process_frame price_per_hour occs acc) st

/-- The spot record built by `__init__` for every region index. -/
def initSpot : Spot := { time := 0, invoice := 0, isAvailable := true }

/-- `self.spots[idx+1] = {'Time':0,'Invoice':0,'IsAvailable': True}` for
`idx in range(len(self.json))`. -/
def init_spots (n : ℕ) : List Spot := List.replicate n initSpot

/-- The initial `pr_info` dictionary. -/
def init_pr_info : PrInfo :=
  { occupancy := 0, available := 0, total_cars := 0, total_time := 0,
    total_revenue := 0 }

/-- C6: `calc_invoice` is the pure function `(price_per_hour / 60) * time`,
with `calc_invoice 30 6000 = 3000` and `calc_invoice 0 8000 = 0`. -/
theorem calc_invoice_spec :
    (∀ time price_per_hour : ℚ,
      calc_invoice time price_per_hour = (price_per_hour / 60) * time) ∧
    calc_invoice 30 6000 = 3000 ∧ calc_invoice 0 8000 = 0 := by
  refine ⟨fun _ _ => rfl, ?_, ?_⟩ <;> norm_num [calc_invoice]

/-- C5: `round_invoice` truncates down to the nearest multiple of 100:
for `0 ≤ x` it satisfies `round_invoice x ≤ x` and is an integer multiple of
100, and `round_invoice 2335 = 2300`, `round_invoice 99 = 0`,
`round_invoice 3000 = 3000`. -/
theorem round_invoice_spec :
    (∀ x : ℚ, 0 ≤ x →
      round_invoice x ≤ x ∧ ∃ k : ℤ, round_invoice x = k * 100) ∧
    round_invoice 2335 = 2300 ∧ round_invoice 99 = 0 ∧
    round_invoice 3000 = 3000 := by
  refine ⟨fun x _ => ⟨?_, ⟨⌊x / 100⌋, rfl⟩⟩, ?_, ?_, ?_⟩
  · have h : (⌊x / 100⌋ : ℚ) ≤ x / 100 := Int.floor_le (x / 100)
    calc (⌊x / 100⌋ : ℚ) * 100 ≤ (x / 100) * 100 := by nlinarith
    _ = x := by ring
  all_goals norm_num [round_invoice]

/-- C5 witness: the general part of `round_invoice_spec` applied at `x = 2335`. -/
theorem round_invoice_spec_witness :
    (0 : ℚ) ≤ 2335 ∧ round_invoice 2335 ≤ 2335 ∧
      ∃ k : ℤ, round_invoice 2335 = k * 100 :=
  ⟨by norm_num, (round_invoice_spec.1 2335 (by norm_num)).1,
    (round_invoice_spec.1 2335 (by norm_num)).2⟩

/-- C1: evaluation of the code at the claimed scenario.  The four `if`s of
`process_data` are sequential, so on the frame where a previously-available
spot becomes occupied the second branch sets `IsAvailable = False` and the
fourth branch then ALSO fires in the same frame: `Time` becomes 1 (not 0) and
`Invoice` becomes `calc_invoice(1, price)`.  Consequently, after 4 consecutive
occupied frames from the initial state `Time = 4` (the claim says 3), and the
closing frame adds 4 minutes and `round_invoice(calc_invoice(4, price)) = 400`
(the claim says 3 minutes and the time-3 invoice). -/
theorem transition_double_fire :
    (step_spot 6000 true initSpot init_pr_info).1.time = 1 ∧
    (step_spot 6000 true initSpot init_pr_info).1.invoice = 100 ∧
    (step_spot 6000 true initSpot init_pr_info).1.isAvailable = false ∧
    (step_spot 6000 true initSpot init_pr_info).2.total_cars = 1 ∧
    (run_frames 6000 [[true], [true], [true], [true]]
        ([initSpot], init_pr_info)).1 =
      [{ time := 4, invoice := 400, isAvailable := false }] ∧
    (run_frames 6000 [[true], [true], [true], [true], [false]]
        ([initSpot], init_pr_info)).2.total_time = 4 ∧
    (run_frames 6000 [[true], [true], [true], [true], [false]]
        ([initSpot], init_pr_info)).2.total_revenue = 400 := by
  refine ⟨?_, ?_, ?_, ?_, ?_, ?_, ?_⟩ <;>
    norm_num [run_frames, process_frame, process_spots, step_spot, initSpot,
      init_pr_info, calc_invoice, round_invoice]

lemma step_spot_avail (price_per_hour : ℚ) (occ : Bool) (s : Spot) (info : PrInfo)
    (h : s.isAvailable = true → s.time = 0 ∧ s.invoice = 0) :
    (step_spot price_per_hour occ s info).1.isAvailable = true →
      (step_spot price_per_hour occ s info).1.time = 0 ∧
      (step_spot price_per_hour occ s info).1.invoice = 0 := by
  cases hA : s.isAvailable <;> cases occ <;> simp_all [step_spot]

lemma process_spots_avail (price_per_hour : ℚ) (pairs : List (Spot × Bool)) :
    ∀ info : PrInfo,
      (∀ p ∈ pairs, p.1.isAvailable = true → p.1.time = 0 ∧ p.1.invoice = 0) →
      ∀ s ∈ (process_spots price_per_hour pairs info).1,
        s.isAvailable = true → s.time = 0 ∧ s.invoice = 0 := by
  induction pairs with
  | nil => intro info _ s hs; simp [process_spots] at hs
  | cons p rest ih =>
    intro info h s hs
    obtain ⟨s0, occ⟩ := p
    simp only [process_spots, List.mem_cons] at hs
    rcases hs with rfl | hs'
    · exact step_spot_avail price_per_hour occ s0 info (h (s0, occ) (by simp))
    · exact ih _ (fun q hq => h q (by simp [hq])) s hs'

lemma process_frame_avail (price_per_hour : ℚ) (occs : List Bool)
    (st : List Spot × PrInfo)
    (h : ∀ s ∈ st.1, s.isAvailable = true → s.time = 0 ∧ s.invoice = 0) :
    ∀ s ∈ (process_frame price_per_hour occs st).1,
      s.isAvailable = true → s.time = 0 ∧ s.invoice = 0 := by
  intro s hs
  simp only [process_frame] at hs
  refine process_spots_avail price_per_hour (st.1.zip occs) st.2 ?_ s hs
  intro p hp
  obtain ⟨a, b⟩ := p
  exact h a (List.of_mem_zip hp).1

lemma run_frames_avail (price_per_hour : ℚ) (frames : List (List Bool)) :
    ∀ st : List Spot × PrInfo,
      (∀ s ∈ st.1, s.isAvailable = true → s.time = 0 ∧ s.invoice = 0) →
      ∀ s ∈ (run_frames price_per_hour frames st).1,
        s.isAvailable = true → s.time = 0 ∧ s.invoice = 0 := by
  induction frames with
  | nil => intro st h; simpa [run_frames] using h
  | cons occs rest ih =>
    intro st h
    have hstep := process_frame_avail price_per_hour occs st h
    have hrw : run_frames price_per_hour (occs :: rest) st =
        run_frames price_per_hour rest (process_frame price_per_hour occs st) := by
      simp [run_frames]
    rw [hrw]
    exact ih _ hstep

/-- C4: from the initial state and after any sequence of frame cycles, every
spot with `IsAvailable = True` has `Time = 0` and `Invoice = 0`. -/
theorem available_spots_zeroed (price_per_hour : ℚ) (n : ℕ)
    (frames : List (List Bool)) (s : Spot)
    (hs : s ∈ (run_frames price_per_hour frames (init_spots n, init_pr_info)).1)
    (hA : s.isAvailable = true) : s.time = 0 ∧ s.invoice = 0 := by
  refine run_frames_avail price_per_hour frames (init_spots n, init_pr_info)
    ?_ s hs hA
  intro t ht _
  have := List.eq_of_mem_replicate (by simpa [init_spots] using ht)
  subst this
  exact ⟨rfl, rfl⟩

/-- C4 witness: `available_spots_zeroed` applied to the one spot of a
one-region lot after an empty frame sequence. -/
theorem available_spots_zeroed_witness :
    initSpot ∈ (run_frames 6000 [] (init_spots 1, init_pr_info)).1 ∧
    initSpot.isAvailable = true ∧ initSpot.time = 0 ∧ initSpot.invoice = 0 :=
  ⟨by simp [run_frames, init_spots, List.mem_replicate], rfl,
   (available_spots_zeroed 6000 1 [] initSpot
      (by simp [run_frames, init_spots, List.mem_replicate]) rfl).1,
   (available_spots_zeroed 6000 1 [] initSpot
      (by simp [run_frames, init_spots, List.mem_replicate]) rfl).2⟩

lemma step_spot_revenue (price_per_hour : ℚ) (occ : Bool) (s : Spot) (info : PrInfo) :
    ∃ k : ℤ, (step_spot price_per_hour occ s info).2.total_revenue =
      info.total_revenue + k * 100 := by
  rcases hA : s.isAvailable with _ | _ <;> rcases occ with _ | _
  · exact ⟨⌊s.invoice / 100⌋, by simp [step_spot, hA, round_invoice]⟩
  · exact ⟨0, by simp [step_spot, hA]⟩
  · exact ⟨0, by simp [step_spot, hA]⟩
  · exact ⟨0, by simp [step_spot, hA]⟩

lemma process_spots_revenue (price_per_hour : ℚ) (pairs : List (Spot × Bool)) :
    ∀ info : PrInfo, ∃ k : ℤ,
      (process_spots price_per_hour pairs info).2.total_revenue =
        info.total_revenue + k * 100 := by
  induction pairs with
  | nil => exact fun info => ⟨0, by simp [process_spots]⟩
  | cons p rest ih =>
    intro info
    obtain ⟨s0, occ⟩ := p
    obtain ⟨k1, h1⟩ := step_spot_revenue price_per_hour occ s0 info
    obtain ⟨k2, h2⟩ := ih (step_spot price_per_hour occ s0 info).2
    refine ⟨k1 + k2, ?_⟩
    simp only [process_spots]
    rw [h2, h1]
    push_cast
    ring

lemma process_frame_revenue (price_per_hour : ℚ) (occs : List Bool)
    (st : List Spot × PrInfo) :
    ∃ k : ℤ, (process_frame price_per_hour occs st).2.total_revenue =
      st.2.total_revenue + k * 100 := by
  obtain ⟨k, hk⟩ := process_spots_revenue price_per_hour (st.1.zip occs) st.2
  exact ⟨k, by simpa [process_frame] using hk⟩

lemma run_frames_revenue (price_per_hour : ℚ) (frames : List (List Bool)) :
    ∀ st : List Spot × PrInfo, ∃ k : ℤ,
      (run_frames price_per_hour frames st).2.total_revenue =
        st.2.total_revenue + k * 100 := by
  induction frames with
  | nil => exact fun st => ⟨0, by simp [run_frames]⟩
  | cons occs rest ih =>
    intro st
    obtain ⟨k1, h1⟩ := process_frame_revenue price_per_hour occs st
    obtain ⟨k2, h2⟩ := ih (process_frame price_per_hour occs st)
    refine ⟨k1 + k2, ?_⟩
    have hrw : run_frames price_per_hour (occs :: rest) st =
        run_frames price_per_hour rest (process_frame price_per_hour occs st) := by
      simp [run_frames]
    rw [hrw, h2, h1]
    push_cast
    ring

/-- C10: from the initial state, after any sequence of frame cycles
`total_revenue` is an integer multiple of 100: it starts at 0 and every
addition to it is a `round_invoice` value. -/
theorem total_revenue_multiple_of_100 (price_per_hour : ℚ) (n : ℕ)
    (frames : List (List Bool)) :
    ∃ k : ℤ,
      (run_frames price_per_hour frames
        (init_spots n, init_pr_info)).2.total_revenue = k * 100 := by
  obtain ⟨k, hk⟩ :=
    run_frames_revenue price_per_hour frames (init_spots n, init_pr_info)
  exact ⟨k, by simpa [init_pr_info] using hk⟩

/-- A detection bounding box `box = [x1, y1, x2, y2]` (`self.boxes` entries). -/
structure Box where
  x1 : ℚ
  y1 : ℚ
  x2 : ℚ
  y2 : ℚ

/-- Python `int(...)` on a number: truncation toward zero. -/
def truncQ (q : ℚ) : ℤ := if 0 ≤ q then ⌊q⌋ else ⌈q⌉

/-- The detection centroid of `process_data`:
`xc, yc = int((box[0] + box[2]) / 2), int((box[1] + box[3]) / 2)`. -/
def box_centroid (b : Box) : ℤ × ℤ :=
  (truncQ ((b.x1 + b.x2) / 2), truncQ ((b.y1 + b.y2) / 2))

/-- Collinearity-and-bounding-box test: the point `p` lies on the closed
segment from `a` to `b`. -/
def on_edge (a b p : ℤ × ℤ) : Bool :=
  decide ((b.1 - a.1) * (p.2 - a.2) = (b.2 - a.2) * (p.1 - a.1) ∧
    min a.1 b.1 ≤ p.1 ∧ p.1 ≤ max a.1 b.1 ∧
    min a.2 b.2 ≤ p.2 ∧ p.2 ≤ max a.2 b.2)

/-- One step of the even-odd rule: the horizontal ray to the right of `p`
crosses the open edge from `a` to `b`. -/
def ray_crosses (p a b : ℤ × ℤ) : Bool :=
  (decide (p.2 < a.2) != decide (p.2 < b.2)) &&
  (if a.2 < b.2
    then decide ((p.1 - a.1) * (b.2 - a.2) < (b.1 - a.1) * (p.2 - a.2))
    else decide ((b.1 - a.1) * (p.2 - a.2) < (p.1 - a.1) * (b.2 - a.2)))

/-- The closed edge list of a polygon (each vertex to its cyclic successor). -/
def polygon_edges (poly : List (ℤ × ℤ)) : List ((ℤ × ℤ) × (ℤ × ℤ)) :=
  poly.zip (poly.drop 1 ++ poly.take 1)

/-- Modelled from the spec: `cv2.pointPolygonTest(pts_array, (xc, yc), False)
>= 0`.  `cv2` is an external library whose source is not part of this
repository; the spec describes it as a standard boundary-inclusive
point-in-polygon containment test, embedded here as: the point lies on some
edge, or a horizontal ray from it crosses the edges an odd number of times. -/
def point_in_polygon (poly : List (ℤ × ℤ)) (p : ℤ × ℤ) : Bool :=
  (polygon_edges poly).any (fun e => on_edge e.1 e.2 p) ||
  ((polygon_edges poly).countP (fun e => ray_crosses p e.1 e.2)) % 2 == 1

/-- One entry of `self.json`: a region record with its `points` list. -/
structure Region where
  points : List (ℤ × ℤ)
deriving DecidableEq

/-- The inner detection loop of `process_data`: `rg_occupied` starts `False`
and is set on the first box whose centroid passes the containment test
(`if dist >= 0: ...; rg_occupied = True; break`), so one region is occupied
iff SOME box centroid lies in it. -/
def rg_occupied (region : Region) (boxes : List Box) : Bool :=
  boxes.any (fun b => point_in_polygon region.points (box_centroid b))

/-- One frame cycle of `process_data` from the raw detections: the verdict for
each region is computed from `(region, boxes)` alone and fed to the
state-machine pass. -/
def process_data (price_per_hour : ℚ) (regions : List Region) (boxes : List Box)
    (st : List Spot × PrInfo) : List Spot × PrInfo :=
  process_frame price_per_hour (regions.map (fun r => rg_occupied r boxes)) st

/-- C7: a region's per-frame verdict is true iff some detection box has its
centroid (integer midpoint of the box coordinates) inside or on the boundary
of the region polygon; with several boxes the verdict is the boolean OR, and
the verdict is a pure function of the region and the boxes (it reads no spot
or aggregate state by construction). -/
theorem rg_occupied_iff (region : Region) (boxes : List Box) :
    rg_occupied region boxes = true ↔
      ∃ b ∈ boxes, point_in_polygon region.points (box_centroid b) = true := by
  simp [rg_occupied, List.any_eq_true]

lemma process_spots_length (price_per_hour : ℚ) (pairs : List (Spot × Bool)) :
    ∀ info : PrInfo,
      (process_spots price_per_hour pairs info).1.length = pairs.length := by
  induction pairs with
  | nil => intro info; simp [process_spots]
  | cons p rest ih =>
    intro info
    obtain ⟨s0, occ⟩ := p
    simp [process_spots, ih]

lemma countP_zip_snd (l1 : List Spot) :
    ∀ l2 : List Bool, l1.length = l2.length →
      (l1.zip l2).countP (fun p => p.2) = l2.countP (fun b => b) := by
  induction l1 with
  | nil =>
    intro l2 h
    have : l2 = [] := List.eq_nil_of_length_eq_zero h.symm
    simp [this]
  | cons a rest ih =>
    intro l2 h
    cases l2 with
    | nil => simp at h
    | cons b t =>
      simp only [List.zip_cons_cons, List.countP_cons]
      rw [ih t (by simpa using h)]

/-- C3: after a frame cycle the snapshot counters partition the configured
regions: `Occupancy + Available = len(json)`, and `Occupancy` is exactly the
number of regions occupied by this frame's verdicts (recomputed from `fs`/`es`
initialised afresh each call, independent of the incoming `pr_info`). -/
theorem occupancy_available_partition (price_per_hour : ℚ)
    (regions : List Region) (boxes : List Box) (spots : List Spot)
    (info : PrInfo) (hlen : spots.length = regions.length) :
    (process_data price_per_hour regions boxes (spots, info)).2.occupancy +
      (process_data price_per_hour regions boxes (spots, info)).2.available =
      regions.length ∧
    (process_data price_per_hour regions boxes (spots, info)).2.occupancy =
      regions.countP (fun r => rg_occupied r boxes) := by
  have hocc : (process_data price_per_hour regions boxes (spots, info)).2.occupancy =
      (spots.zip (regions.map (fun r => rg_occupied r boxes))).countP
        (fun p => p.2) := by
    simp [process_data, process_frame]
  have havail : (process_data price_per_hour regions boxes (spots, info)).2.available =
      spots.length - (spots.zip (regions.map (fun r => rg_occupied r boxes))).countP
        (fun p => p.2) := by
    simp [process_data, process_frame]
  have hcnt := countP_zip_snd spots (regions.map (fun r => rg_occupied r boxes))
    (by simpa using hlen)
  have hle : (spots.zip (regions.map (fun r => rg_occupied r boxes))).countP
      (fun p => p.2) ≤ spots.length :=
    le_trans (List.countP_le_length _) (by rw [List.length_zip]; omega)
  refine ⟨?_, ?_⟩
  · rw [hocc, havail]; omega
  · rw [hocc, hcnt]
    rw [List.countP_map]
    rfl

/-- C3 witness: `occupancy_available_partition` for a one-region lot with no
detections. -/
theorem occupancy_available_partition_witness :
    ([initSpot].length = [Region.mk [(0, 0), (10, 0), (10, 10)]].length) ∧
    (process_data 6000 [Region.mk [(0, 0), (10, 0), (10, 10)]] []
        ([initSpot], init_pr_info)).2.occupancy +
      (process_data 6000 [Region.mk [(0, 0), (10, 0), (10, 10)]] []
        ([initSpot], init_pr_info)).2.available = 1 :=
  ⟨rfl, (occupancy_available_partition 6000 [Region.mk [(0, 0), (10, 0), (10, 10)]]
    [] [initSpot] init_pr_info rfl).1⟩

lemma step_spot_noop (price_per_hour : ℚ) (s : Spot) (info : PrInfo)
    (hA : s.isAvailable = true) :
    step_spot price_per_hour false s info = (s, info) := by
  simp [step_spot, hA]

lemma process_spots_noop (price_per_hour : ℚ) (spots : List Spot) :
    ∀ (occs : List Bool) (info : PrInfo),
      occs.length = spots.length →
      (∀ s ∈ spots, s.isAvailable = true) →
      (∀ b ∈ occs, b = false) →
      process_spots price_per_hour (spots.zip occs) info = (spots, info) := by
  induction spots with
  | nil => intro occs info _ _ _; simp [process_spots]
  | cons s rest ih =>
    intro occs info hlen hA hO
    cases occs with
    | nil => simp at hlen
    | cons b t =>
      have hb : b = false := hO b (by simp)
      have hs : s.isAvailable = true := hA s (by simp)
      subst hb
      have hrest : process_spots price_per_hour (List.zipWith Prod.mk rest t)
          info = (rest, info) :=
        ih t info (by simpa using hlen)
          (fun q hq => hA q (by simp [hq])) (fun q hq => hO q (by simp [hq]))
      simp [process_spots, step_spot_noop price_per_hour s info hs, hrest]

lemma process_frame_noop (price_per_hour : ℚ) (spots : List Spot)
    (occs : List Bool) (info : PrInfo)
    (hlen : occs.length = spots.length)
    (hA : ∀ s ∈ spots, s.isAvailable = true)
    (hO : ∀ b ∈ occs, b = false) :
    process_frame price_per_hour occs (spots, info) =
      (spots, { info with occupancy := 0, available := spots.length }) := by
  have hz := process_spots_noop price_per_hour spots occs info hlen hA hO
  have hfs : (spots.zip occs).countP (fun p => p.2) = 0 := by
    rw [List.countP_eq_zero]
    intro p hp
    obtain ⟨a, c⟩ := p
    have := hO c (List.of_mem_zip hp).2
    simp [this]
  simp [process_frame, hz, hfs]

/-- C9: a spot that is available before a frame and not occupied in it is
left completely untouched by its transition block (spot state and every
cumulative aggregate), and a whole frame of available, unoccupied spots
changes no spot and no cumulative aggregate and is idempotent. -/
theorem available_frame_noop :
    (∀ (price_per_hour : ℚ) (s : Spot) (info : PrInfo),
      s.isAvailable = true →
      step_spot price_per_hour false s info = (s, info)) ∧
    (∀ (price_per_hour : ℚ) (spots : List Spot) (occs : List Bool)
      (info : PrInfo),
      occs.length = spots.length →
      (∀ s ∈ spots, s.isAvailable = true) →
      (∀ b ∈ occs, b = false) →
      (process_frame price_per_hour occs (spots, info)).1 = spots ∧
      (process_frame price_per_hour occs (spots, info)).2.total_cars =
        info.total_cars ∧
      (process_frame price_per_hour occs (spots, info)).2.total_time =
        info.total_time ∧
      (process_frame price_per_hour occs (spots, info)).2.total_revenue =
        info.total_revenue ∧
      process_frame price_per_hour occs
          (process_frame price_per_hour occs (spots, info)) =
        process_frame price_per_hour occs (spots, info)) := by
  refine ⟨step_spot_noop, ?_⟩
  intro price_per_hour spots occs info hlen hA hO
  have h1 := process_frame_noop price_per_hour spots occs info hlen hA hO
  have h2 := process_frame_noop price_per_hour spots occs
    { info with occupancy := 0, available := spots.length } hlen hA hO
  rw [h1, h2]
  simp

/-- C9 witness: `available_frame_noop` on a one-spot lot with an
all-unoccupied frame. -/
theorem available_frame_noop_witness :
    initSpot.isAvailable = true ∧
    step_spot 6000 false initSpot init_pr_info = (initSpot, init_pr_info) ∧
    ([false].length = [initSpot].length) ∧
    (process_frame 6000 [false] ([initSpot], init_pr_info)).1 = [initSpot] :=
  ⟨rfl, available_frame_noop.1 6000 initSpot init_pr_info rfl, rfl,
   (available_frame_noop.2 6000 [initSpot] [false] init_pr_info rfl
      (by simp [initSpot]) (by simp)).1⟩

/-- The state built by `ParkingManagement.__init__`. -/
structure PMState where
  json : List Region
  pr_info : PrInfo
  price_per_hour : Option ℚ
  spots : List Spot
deriving DecidableEq

/-- `ParkingManagement.__init__`: raises
`ValueError("Json file path can not be empty")` when `json_file` is `None`;
otherwise it builds the state.  No other validation is performed: the loaded
region list may be empty, polygons are not inspected, and `price_per_hour`
defaults to `None` and is stored as-is. -/
def parking_management_init (json_file : Option (List Region))
    (price_per_hour : Option ℚ) : Except String PMState :=
  match json_file with
  | none => Except.error "Json file path can not be empty"
  | some js =>
    Except.ok { json := js, pr_info := init_pr_info,
                price_per_hour := price_per_hour,
                spots := init_spots js.length }

/-- C2 counterexample: construction succeeds (returns a state, raises
nothing) on an empty space configuration with a missing price-per-hour, and
on a malformed two-point polygon — refuting the claim that every such input
makes session construction fail. -/
theorem init_accepts_degenerate_config :
    parking_management_init (some []) none =
      Except.ok { json := [], pr_info := init_pr_info, price_per_hour := none,
                  spots := [] } ∧
    parking_management_init (some [Region.mk [(0, 0), (1, 1)]]) none =
      Except.ok { json := [Region.mk [(0, 0), (1, 1)]],
                  pr_info := init_pr_info, price_per_hour := none,
                  spots := [initSpot] } :=
  ⟨rfl, rfl⟩

/-- C2 (amended): session construction fails iff the space-configuration
source (`json_file`) is missing: `None` raises, and every loaded
configuration — empty, with degenerate polygons, or without a price — yields
a constructed session. -/
theorem init_fails_only_on_missing_json :
    (∀ price_per_hour : Option ℚ,
      parking_management_init none price_per_hour =
        Except.error "Json file path can not be empty") ∧
    (∀ (js : List Region) (price_per_hour : Option ℚ),
      ∃ st : PMState,
        parking_management_init (some js) price_per_hour = Except.ok st) :=
  ⟨fun _ => rfl, fun _ _ => ⟨_, rfl⟩⟩

/-- `get_min_coords` from `parking_management.py`: the pair
`(min_y, min_x)` over the points of a region, used as the sort key
(min-y first, to sort top-to-bottom then left-to-right).  Python `min`
raises on an empty sequence; the `[]` branch is unreachable for the
nonempty polygons this key is applied to. -/
def get_min_coords (r : Region) : ℤ × ℤ :=
  match r.points with
  | [] => (0, 0)
  | p :: ps =>
    (ps.foldl (fun m q => min m q.2) p.2, ps.foldl (fun m q => min m q.1) p.1)

/-- Python tuple comparison of the `(min_y, min_x)` keys (lexicographic,
non-strict). -/
def key_le (a b : Region) : Prop :=
  (get_min_coords a).1 < (get_min_coords b).1 ∨
    ((get_min_coords a).1 = (get_min_coords b).1 ∧
      (get_min_coords a).2 ≤ (get_min_coords b).2)

/-- Strict lexicographic comparison of the `(min_y, min_x)` keys. -/
def key_lt (a b : Region) : Prop :=
  (get_min_coords a).1 < (get_min_coords b).1 ∨
    ((get_min_coords a).1 = (get_min_coords b).1 ∧
      (get_min_coords a).2 < (get_min_coords b).2)

instance : DecidableRel key_le := fun a b => by
  unfold key_le; exact inferInstance

instance : DecidableRel key_lt := fun a b => by
  unfold key_lt; exact inferInstance

instance : IsTotal Region key_le :=
  ⟨by intro a b; unfold key_le; omega⟩

instance : IsTrans Region key_le :=
  ⟨by intro a b c hab hbc; unfold key_le at hab hbc ⊢; omega⟩

instance : IsAntisymm Region key_lt :=
  ⟨by intro a b h1 h2; exfalso; unfold key_lt at h1 h2; omega⟩

/-- `sorted(annotation_data, key=get_min_coords)` from
`CreateAnnotationView.post`: a stable ascending sort by the `(min_y, min_x)`
key, embedded as insertion sort. -/
def sort_regions (l : List Region) : List Region :=
  List.insertionSort key_le l

/-- The id assignment of `__init__` over the saved (sorted) region file:
the region at position `idx` gets id `idx + 1`. -/
def assign_ids (l : List Region) : List (ℕ × Region) :=
  List.enumFrom 1 l

lemma sorted_key_lt (l : List Region) (hs : List.Sorted key_le l)
    (hd : l.Pairwise fun a b => get_min_coords a ≠ get_min_coords b) :
    List.Sorted key_lt l := by
  have hand := List.Pairwise.and hs hd
  refine hand.imp ?_
  intro a b h
  obtain ⟨h1, h2⟩ := h
  rcases h1 with h | ⟨hy, hx⟩
  · exact Or.inl h
  · refine Or.inr ⟨hy, lt_of_le_of_ne hx ?_⟩
    intro hx2
    exact h2 (Prod.ext hy hx2)

/-- C8 (amended): sorting by the `(min_y, min_x)` key before assigning ids
`1..N` makes the id assignment independent of the submission order whenever
the keys are pairwise distinct (with equal keys the stable sort preserves
submission order, see the counterexample); the saved list is sorted
ascending by key. -/
theorem sort_regions_order_independent (xs ys : List Region)
    (hperm : xs.Perm ys)
    (hkeys : xs.Pairwise fun a b => get_min_coords a ≠ get_min_coords b) :
    List.Sorted key_le (sort_regions xs) ∧
    assign_ids (sort_regions xs) = assign_ids (sort_regions ys) := by
  have hs1 : List.Sorted key_le (sort_regions xs) :=
    List.sorted_insertionSort key_le xs
  have hs2 : List.Sorted key_le (sort_regions ys) :=
    List.sorted_insertionSort key_le ys
  have hp1 : (sort_regions xs).Perm xs := List.perm_insertionSort key_le xs
  have hp2 : (sort_regions ys).Perm ys := List.perm_insertionSort key_le ys
  have hkeys_ys : ys.Pairwise
      (fun a b => get_min_coords a ≠ get_min_coords b) :=
    (hperm.pairwise_iff (fun h => Ne.symm h)).mp hkeys
  have hd1 := (hp1.pairwise_iff (fun h => Ne.symm h)).mpr hkeys
  have hd2 := (hp2.pairwise_iff (fun h => Ne.symm h)).mpr hkeys_ys
  have hlt1 := sorted_key_lt _ hs1 hd1
  have hlt2 := sorted_key_lt _ hs2 hd2
  have hpp : (sort_regions xs).Perm (sort_regions ys) :=
    hp1.trans (hperm.trans hp2.symm)
  have heq : sort_regions xs = sort_regions ys :=
    List.eq_of_perm_of_sorted hpp hlt1 hlt2
  exact ⟨hs1, by rw [heq]⟩

/-- The docstring example polygon of `get_min_coords`, key `(40, 1553)`. -/
def regA : Region := ⟨[(1553, 48), (1718, 40), (1735, 128), (1577, 133)]⟩

/-- A polygon with key `(10, 500)`. -/
def regB : Region := ⟨[(500, 10), (620, 12), (640, 120), (505, 125)]⟩

/-- C8 witness: with keys `(40, 1553)` and `(10, 500)`, either input order
yields the same assignment, giving id 1 to the `(10, 500)` polygon. -/
theorem sort_regions_order_independent_witness :
    [regA, regB].Perm [regB, regA] ∧
    ([regA, regB].Pairwise fun a b =>
      get_min_coords a ≠ get_min_coords b) ∧
    assign_ids (sort_regions [regA, regB]) =
      assign_ids (sort_regions [regB, regA]) ∧
    assign_ids (sort_regions [regA, regB]) = [(1, regB), (2, regA)] :=
  ⟨by decide, by decide,
   (sort_regions_order_independent [regA, regB] [regB, regA]
      (by decide) (by decide)).2,
   by decide⟩

/-- C8 counterexample: two distinct polygons can share the sort key — both
regions below have key `(1, 1)` — and then the stable sort preserves the
submission order, so the two submission orders produce different id
assignments.  This refutes the unqualified order-independence claim at a
concrete input. -/
theorem sort_regions_order_dependent_on_equal_keys :
    get_min_coords (Region.mk [(1, 1), (2, 2), (3, 1)]) =
      get_min_coords (Region.mk [(1, 1), (5, 5), (6, 1)]) ∧
    assign_ids (sort_regions
        [Region.mk [(1, 1), (2, 2), (3, 1)],
         Region.mk [(1, 1), (5, 5), (6, 1)]]) ≠
      assign_ids (sort_regions
        [Region.mk [(1, 1), (5, 5), (6, 1)],
         Region.mk [(1, 1), (2, 2), (3, 1)]]) :=
  ⟨by decide, by decide⟩
